import Mathlib

/-!
Verification development for the CloudFront paywall demo.

The subject is the Lambda@Edge viewer-request function inlined in
`deploy-script/step-2-cfdistribution.yml` (resource
`PaywallDemoLambdaEdgeFunction`, lines 232-401).  The JavaScript is shallowly
embedded below: each helper of the source (`base64urlDecode`,
`base64urlToBase64`, `getKey`, `verify`, `getObj`, `isExpired`, the constant
`response401`, the constant `mapping`, and the `handler` entry point) has a
Lean counterpart of the same name.  JavaScript exceptions are modelled with
`Except Unit`; the RSA-SHA256 primitive (`crypto.createVerify(...).verify`)
and the clock (`(+ new Date()) / 1000`) are parameters of the model, since
they are the only effectful ingredients.  All string work is done on
`List Char`, which agrees with the JavaScript string operations used by the
source on the ASCII data the system handles.
-/

namespace Paywall

/-! ### String helpers (JavaScript `split`, `substring`, `indexOf`, `toLowerCase`) -/

/-- `String.prototype.split` with a one-character separator, on char lists. -/
def splitCharList (sep : Char) : List Char → List (List Char)
  | [] => [[]]
  | c :: rest =>
    match splitCharList sep rest with
    | [] => [[]]
    | h :: t => if c = sep then [] :: h :: t else (c :: h) :: t

/-- JavaScript `s.split(sep)` for a one-character separator. -/
def jsSplit (sep : Char) (s : String) : List String :=
  (splitCharList sep s.data).map String.mk

/-- JavaScript `s.substring(n)`: drop the first `n` characters. -/
def strDrop (n : Nat) (s : String) : String :=
  String.mk (s.data.drop n)

/-- JavaScript `s.toLowerCase()` (ASCII range, which covers the slugs used). -/
def strLower (s : String) : String :=
  String.mk (s.data.map Char.toLower)

/-- Does `pat` occur at the head of the list? -/
def prefCheck : List Char → List Char → Bool
  | [], _ => true
  | _ :: _, [] => false
  | p :: ps, c :: cs => if p = c then prefCheck ps cs else false

def occursInL (pat : List Char) : List Char → Bool
  | [] => prefCheck pat []
  | c :: rest => if prefCheck pat (c :: rest) then true else occursInL pat rest

/-- JavaScript `s.indexOf(pat) >= 0`: `pat` occurs somewhere in `s`. -/
def occursIn (pat s : String) : Bool :=
  occursInL pat.data s.data

/-- `s` begins with `pat` (used to state the spec's prefix-based claim C6). -/
def leadsWith (pat s : String) : Bool :=
  prefCheck pat.data s.data

/-! ### Base64 / base64url codec

Models Node's `Buffer.from(str, 'base64url')` / `.toString('base64')` pair
used by `base64urlDecode` and `base64urlToBase64` (template lines 272-278).
Node's decoder is lenient: characters outside the alphabet (including `=`
padding) are skipped, and a trailing partial group of fewer than two sextets
is dropped.  Decoded bytes are mapped to characters directly; every input
this development evaluates is ASCII, where this agrees with `toString('utf8')`.
-/

def b64CharVal (c : Char) : Option Nat :=
  if 'A' ≤ c ∧ c ≤ 'Z' then some (c.toNat - 65)
  else if 'a' ≤ c ∧ c ≤ 'z' then some (c.toNat - 97 + 26)
  else if '0' ≤ c ∧ c ≤ '9' then some (c.toNat - 48 + 52)
  else if c = '-' ∨ c = '+' then some 62
  else if c = '_' ∨ c = '/' then some 63
  else none

def sextetsToBytes : List Nat → List Nat
  | a :: b :: c :: d :: rest =>
    (a * 4 + b / 16) :: ((b % 16) * 16 + c / 4) :: ((c % 4) * 64 + d) :: sextetsToBytes rest
  | [a, b] => [a * 4 + b / 16]
  | [a, b, c] => [a * 4 + b / 16, (b % 16) * 16 + c / 4]
  | _ => []

def b64DecodeBytes (s : String) : List Nat :=
  sextetsToBytes (s.data.filterMap b64CharVal)

/-- Source `base64urlDecode` (line 272): decode base64url text to a string. -/
def base64urlDecode (s : String) : String :=
  String.mk ((b64DecodeBytes s).map Char.ofNat)

def b64Char (n : Nat) : Char :=
  if n < 26 then Char.ofNat (65 + n)
  else if n < 52 then Char.ofNat (97 + n - 26)
  else if n < 62 then Char.ofNat (48 + n - 52)
  else if n = 62 then '+' else '/'

def bytesToB64 : List Nat → List Char
  | b1 :: b2 :: b3 :: rest =>
    b64Char (b1 / 4) :: b64Char ((b1 % 4) * 16 + b2 / 16) ::
      b64Char ((b2 % 16) * 4 + b3 / 64) :: b64Char (b3 % 64) :: bytesToB64 rest
  | [b1, b2] => [b64Char (b1 / 4), b64Char ((b1 % 4) * 16 + b2 / 16), b64Char ((b2 % 16) * 4), '=']
  | [b1] => [b64Char (b1 / 4), b64Char ((b1 % 4) * 16), '=', '=']
  | [] => []

/-- Source `base64urlToBase64` (line 276): re-encode base64url as base64. -/
def base64urlToBase64 (s : String) : String :=
  String.mk (bytesToB64 (b64DecodeBytes s))

/-! ### JSON values and `JSON.parse`

The source calls `JSON.parse` on the decoded header and claims segments.  The
parser below covers the JSON fragment the tokens of this system use: objects,
arrays, strings (with the simple escapes), integer and decimal numbers,
booleans and null.  Exponent number forms, `\u` escapes and the leading-zero
restriction are outside the modelled fragment; no input evaluated in this
development touches them.  As in JavaScript, a duplicated object key is
resolved to its last occurrence (`jsLookup` scans with a left fold).
-/

inductive JVal where
  | null : JVal
  | bool (b : Bool) : JVal
  | num (q : ℚ) : JVal
  | str (s : String) : JVal
  | arr (xs : List JVal) : JVal
  | obj (fields : List (String × JVal)) : JVal

def skipWs : List Char → List Char
  | [] => []
  | c :: rest => if c = ' ' ∨ c = '\t' ∨ c = '\n' ∨ c = '\r' then skipWs rest else c :: rest

def digitVal (c : Char) : Option Nat :=
  if '0' ≤ c ∧ c ≤ '9' then some (c.toNat - 48) else none

def takeDigits : List Char → List Nat × List Char
  | [] => ([], [])
  | c :: rest =>
    match digitVal c with
    | some d =>
      match takeDigits rest with
      | (ds, r) => (d :: ds, r)
    | none => ([], c :: rest)

def digitsToNat (ds : List Nat) : Nat :=
  ds.foldl (fun a d => a * 10 + d) 0

def parseNum (cs : List Char) : Option (ℚ × List Char) :=
  let signed : Bool × List Char :=
    match cs with
    | '-' :: r => (true, r)
    | _ => (false, cs)
  match takeDigits signed.2 with
  | ([], _) => none
  | (ds, rest) =>
    let ip : ℚ := (digitsToNat ds : ℚ)
    match rest with
    | '.' :: r2 =>
      match takeDigits r2 with
      | ([], _) => none
      | (fs, rest2) =>
        let v : ℚ := ip + (digitsToNat fs : ℚ) / ((10 : ℚ) ^ fs.length)
        some ((if signed.1 then -v else v), rest2)
    | _ => some ((if signed.1 then -ip else ip), rest)

def parseStrChars : List Char → Option (List Char × List Char)
  | [] => none
  | '"' :: rest => some ([], rest)
  | '\\' :: e :: rest =>
    let mapped : Option Char :=
      if e = '"' ∨ e = '\\' ∨ e = '/' then some e
      else if e = 'n' then some (Char.ofNat 10)
      else if e = 't' then some (Char.ofNat 9)
      else if e = 'r' then some (Char.ofNat 13)
      else none
    match mapped with
    | some c =>
      match parseStrChars rest with
      | some (cs, r) => some (c :: cs, r)
      | none => none
    | none => none
  | c :: rest =>
    match parseStrChars rest with
    | some (cs, r) => some (c :: cs, r)
    | none => none

mutual

def parseVal : Nat → List Char → Option (JVal × List Char)
  | 0, _ => none
  | Nat.succ fuel, cs =>
    match skipWs cs with
    | '{' :: rest =>
      (match skipWs rest with
       | '}' :: r2 => some (JVal.obj [], r2)
       | _ =>
         match parseMembers fuel (skipWs rest) with
         | some (fs, r2) => some (JVal.obj fs, r2)
         | none => none)
    | '[' :: rest =>
      (match skipWs rest with
       | ']' :: r2 => some (JVal.arr [], r2)
       | _ =>
         match parseElems fuel (skipWs rest) with
         | some (es, r2) => some (JVal.arr es, r2)
         | none => none)
    | '"' :: rest =>
      (match parseStrChars rest with
       | some (scs, r2) => some (JVal.str (String.mk scs), r2)
       | none => none)
    | 't' :: 'r' :: 'u' :: 'e' :: rest => some (JVal.bool true, rest)
    | 'f' :: 'a' :: 'l' :: 's' :: 'e' :: rest => some (JVal.bool false, rest)
    | 'n' :: 'u' :: 'l' :: 'l' :: rest => some (JVal.null, rest)
    | other =>
      (match parseNum other with
       | some (q, rest) => some (JVal.num q, rest)
       | none => none)

def parseMembers : Nat → List Char → Option (List (String × JVal) × List Char)
  | 0, _ => none
  | Nat.succ fuel, cs =>
    match cs with
    | '"' :: rest =>
      (match parseStrChars rest with
       | some (kcs, r1) =>
         (match skipWs r1 with
          | ':' :: r2 =>
            (match parseVal fuel r2 with
             | some (v, r3) =>
               (match skipWs r3 with
                | ',' :: r4 =>
                  (match parseMembers fuel (skipWs r4) with
                   | some (fs, r5) => some ((String.mk kcs, v) :: fs, r5)
                   | none => none)
                | '}' :: r4 => some ([(String.mk kcs, v)], r4)
                | _ => none)
             | none => none)
          | _ => none)
       | none => none)
    | _ => none

def parseElems : Nat → List Char → Option (List JVal × List Char)
  | 0, _ => none
  | Nat.succ fuel, cs =>
    match parseVal fuel cs with
    | some (v, r1) =>
      (match skipWs r1 with
       | ',' :: r2 =>
         (match parseElems fuel (skipWs r2) with
          | some (es, r3) => some (v :: es, r3)
          | none => none)
       | ']' :: r2 => some ([v], r2)
       | _ => none)
    | none => none

end

/-- `JSON.parse`: `none` models the thrown `SyntaxError`. -/
def jsonParse (s : String) : Option JVal :=
  match parseVal (2 * s.length + 8) s.data with
  | some (v, rest) => if skipWs rest = [] then some v else none
  | none => none

/-- JavaScript property read `v[k]`: `none` models `undefined`.  Arrays and
primitives have none of the properties this code reads; a duplicated key
resolves to its last occurrence, as in `JSON.parse`. -/
def jsLookup (v : JVal) (k : String) : Option JVal :=
  match v with
  | JVal.obj fields => fields.foldl (fun acc f => if f.1 = k then some f.2 else acc) none
  | _ => none

/-! ### CloudFront event model

A viewer-request event carries `{ method, uri, headers }` where `headers`
maps a lowercased header name to a list of `{ key?, value }` entries.  The
handler reads `request.headers.cookie`, writes `request.headers['x-is-subscriber']`
and `request.headers['x-api-key']`, and otherwise returns the request or the
constant `response401`.  Header maps are embedded as association lists with
unique keys (JavaScript object semantics): `hdrSet` replaces the entry when
present and appends it otherwise.
-/

structure HV where
  key : Option String := none
  value : String
deriving Repr, DecidableEq

abbrev Headers := List (String × List HV)

def hdrGet : Headers → String → Option (List HV)
  | [], _ => none
  | p :: rest, n => if p.1 = n then some p.2 else hdrGet rest n

def hdrSet : Headers → String → List HV → Headers
  | [], n, v => [(n, v)]
  | p :: rest, n, v => if p.1 = n then (n, v) :: rest else p :: hdrSet rest n v

structure CfRequest where
  method : String
  uri : String
  headers : Headers
deriving Repr, DecidableEq

structure CfResponse where
  status : String
  statusDescription : String
  headers : Headers
  body : String
deriving Repr, DecidableEq

/-- What the handler returns to CloudFront: the (possibly augmented) request,
or a terminal response. -/
inductive EdgeResult where
  | forward (req : CfRequest) : EdgeResult
  | reject (res : CfResponse) : EdgeResult
deriving Repr, DecidableEq

/-- Source `response401` (lines 251-261): the fixed response returned when the
JWT is missing or invalid. -/
def response401 : CfResponse :=
  { status := "401"
    statusDescription := "Not authorized"
    headers := [("content-type", [{ key := some "Content-Type", value := "text/html" }])]
    body := "Please login" }

/-- Source `mapping` (lines 266-269): url slug to product code. -/
def mapping (s : String) : Option String :=
  if s = "product-a" then some "A"
  else if s = "product-b" then some "B"
  else none

/-! ### Signature verification -/

/-- The RSA-SHA256 primitive `crypto.createVerify('RSA-SHA256')...verify(key,
sig, 'base64')`, abstracted: given the key material, the signing input
`header ++ "." ++ payload` and the base64 signature, it returns a boolean or
throws (`Except.error`).  The model quantifies over this oracle. -/
structure CryptoOracle where
  rsaVerify : String → String → String → Except Unit Bool

/-- The key set `KEYS` (line 248): key id to public key material. -/
def lookupKey : List (String × String) → String → Option String
  | [], _ => none
  | p :: rest, s => if p.1 = s then some p.2 else lookupKey rest s

/-- Source `getKey` (lines 284-292): `KEYS[kid]`.  `kid` is whatever JSON
value sits at `headerObj.kid`; a missing or non-string kid finds no key
(`undefined`).  The source's try/catch never fires: property reads on the
constant `KEYS` object do not throw. -/
def getKey (keys : List (String × String)) (kid : Option JVal) : Option String :=
  match kid with
  | some (JVal.str s) => lookupKey keys s
  | _ => none

/-- Source `verify` (lines 294-311), the body inside the try: splits the
token, JSON-parses the decoded header (a parse failure throws), re-encodes
the signature segment (`base64urlToBase64` of an `undefined` third segment
throws), and calls the crypto primitive with the looked-up key (a missing key
makes `crypto.verify` throw). -/
def verifyExc (oracle : CryptoOracle) (keys : List (String × String)) (jwt : String) :
    Except Unit Bool :=
  match jsonParse (base64urlDecode ((jsSplit '.' jwt).headD "")) with
  | none => Except.error ()
  | some headerObj =>
    match (jsSplit '.' jwt)[2]? with
    | none => Except.error ()
    | some sig =>
      match getKey keys (jsLookup headerObj "kid") with
      | none => Except.error ()
      | some k =>
        oracle.rsaVerify k
          ((jsSplit '.' jwt).headD "" ++ "." ++
            (match (jsSplit '.' jwt)[1]? with
             | some p => p
             | none => "undefined"))
          (base64urlToBase64 sig)

/-- Source `verify` with its catch-all (lines 307-310): any thrown error is
converted to `false`. -/
def verify (oracle : CryptoOracle) (keys : List (String × String)) (jwt : String) : Bool :=
  match verifyExc oracle keys jwt with
  | Except.ok b => b
  | Except.error _ => false

/-! ### Claims -/

/-- Source `getObj` (lines 314-323): decode segment 2 (`base64urlDecode` of an
`undefined` segment throws, and sits outside the try) and `JSON.parse` it,
returning the empty array `[]` when parsing throws. -/
def getObjExc (jwt : String) : Except Unit JVal :=
  match (jsSplit '.' jwt)[1]? with
  | none => Except.error ()
  | some payload =>
    Except.ok
      (match jsonParse (base64urlDecode payload) with
       | some v => v
       | none => JVal.arr [])

/-- JavaScript `ToNumber` on the values relevant to `jwtObj.exp < now`:
`none` models NaN (every comparison false).  Objects and arrays (which
JavaScript would coerce through their string form) are modelled as NaN; the
tokens of this system carry numeric or absent `exp` only. -/
def jsToNum : JVal → Option ℚ
  | JVal.num q => some q
  | JVal.null => some 0
  | JVal.bool b => some (if b then 1 else 0)
  | _ => none

/-- Source `isExpired` (lines 326-335): `jwtObj.exp < now`, where `now` is the
clock reading `(+ new Date()) / 1000` passed into the model as a parameter.
A missing `exp` gives `undefined < now`, which is false. -/
def isExpired (jwtObj : JVal) (now : ℚ) : Bool :=
  match jsLookup jwtObj "exp" with
  | none => false
  | some v =>
    match jsToNum v with
    | some e => decide (e < now)
    | none => false

/-- Source line 378: `obj['custom:subs'] ? obj['custom:subs'].split(',') : []`.
A truthy non-string claim value has no `.split`, so the expression throws. -/
def getSubs (obj : JVal) : Except Unit (List String) :=
  match jsLookup obj "custom:subs" with
  | none => Except.ok []
  | some JVal.null => Except.ok []
  | some (JVal.bool b) => if b then Except.error () else Except.ok []
  | some (JVal.num n) => if n = 0 then Except.ok [] else Except.error ()
  | some (JVal.str s) => if s = "" then Except.ok [] else Except.ok (jsSplit ',' s)
  | some (JVal.arr _) => Except.error ()
  | some (JVal.obj _) => Except.error ()

/-! ### The handler (lines 338-401) -/

/-- The cookie scan (lines 347-360): walk `request.headers.cookie` in order
and take the first entry whose value has `indexOf('jwt=') >= 0`; the token is
`value.substring(4)`.  `none` models `jwt` remaining `null`. -/
def extractJwt : List HV → Option String
  | [] => none
  | hv :: rest =>
    if occursIn "jwt=" hv.value then some (strDrop 4 hv.value) else extractJwt rest

/-- `request.headers.cookie`, an absent cookie header skipping the scan
(line 353) exactly as an empty entry list does. -/
def cookiesOf (req : CfRequest) : List HV :=
  (hdrGet req.headers "cookie").getD []

/-- Line 391: `subs.includes(mapping[productFromUrl.toLowerCase()])`.  An
unmapped slug looks up `undefined`, which is never an element of the
subscription string list. -/
def subIncl (subs : List String) (p : String) : Bool :=
  match mapping (strLower p) with
  | some c => subs.contains c
  | none => false

/-- Lines 391-399: set `x-is-subscriber` from the entitlement decision and
`x-api-key` to the shared secret `ApiKeyValue`. -/
def augment (req : CfRequest) (isSub : Bool) (apiKey : String) : CfRequest :=
  { req with
      headers :=
        hdrSet
          (hdrSet req.headers "x-is-subscriber" [{ value := if isSub then "true" else "false" }])
          "x-api-key" [{ value := apiKey }] }

/-- Source `handler` (lines 338-401).  Parameters: the crypto oracle, the key
set `KEYS`, the CloudFormation-substituted `ApiKeyValue`, the clock reading
`(+ new Date()) / 1000` as `now`, and `event.Records[0].cf.request`.  The
`Except` layer records the (unreachable in deployment) places where the
JavaScript would throw. -/
def handler (oracle : CryptoOracle) (keys : List (String × String)) (apiKey : String)
    (now : ℚ) (req : CfRequest) : Except Unit EdgeResult :=
  if req.method = "GET" then
    match extractJwt (cookiesOf req) with
    | none => Except.ok (EdgeResult.reject response401)
    | some jwt =>
      if jwt = "" then Except.ok (EdgeResult.reject response401)
      else if verify oracle keys jwt then
        match getObjExc jwt with
        | Except.error e => Except.error e
        | Except.ok obj =>
          if isExpired obj now then Except.ok (EdgeResult.reject response401)
          else
            match getSubs obj with
            | Except.error e => Except.error e
            | Except.ok subs =>
              match (jsSplit '/' req.uri)[1]? with
              | none => Except.ok (EdgeResult.forward req)
              | some p =>
                if p = "" then Except.ok (EdgeResult.forward req)
                else Except.ok (EdgeResult.forward (augment req (subIncl subs p) apiKey))
      else Except.ok (EdgeResult.reject response401)
  else Except.ok (EdgeResult.forward req)

/-! ### Helper lemmas -/

instance {α β : Type} [DecidableEq α] [DecidableEq β] : DecidableEq (Except α β) := by
  intro a b
  cases a with
  | ok x =>
    cases b with
    | ok y => exact if h : x = y then Decidable.isTrue (by rw [h]) else Decidable.isFalse (by simp [h])
    | error y => exact Decidable.isFalse (by simp)
  | error x =>
    cases b with
    | ok y => exact Decidable.isFalse (by simp)
    | error y => exact if h : x = y then Decidable.isTrue (by rw [h]) else Decidable.isFalse (by simp [h])

theorem hdrGet_hdrSet_self (hs : Headers) (n : String) (v : List HV) :
    hdrGet (hdrSet hs n v) n = some v := by
  induction hs with
  | nil => simp [hdrSet, hdrGet]
  | cons p rest ih =>
    by_cases h : p.1 = n
    · simp [hdrSet, hdrGet, h]
    · simp [hdrSet, hdrGet, h, ih]

theorem hdrGet_hdrSet_other (hs : Headers) (n m : String) (v : List HV) (h : m ≠ n) :
    hdrGet (hdrSet hs n v) m = hdrGet hs m := by
  have hnm : ¬ (n = m) := fun he => h he.symm
  induction hs with
  | nil =>
    simp only [hdrSet, hdrGet]
    rw [if_neg hnm]
  | cons p rest ih =>
    by_cases hp : p.1 = n
    · have hpm : ¬ (p.1 = m) := by rw [hp]; exact hnm
      simp only [hdrSet, hdrGet, if_pos hp, if_neg hnm, if_neg hpm]
    · by_cases hm : p.1 = m
      · simp only [hdrSet, hdrGet, if_neg hp, if_pos hm]
      · simp only [hdrSet, hdrGet, if_neg hp, if_neg hm]
        exact ih

theorem hdrGet_augment_isSub (req : CfRequest) (b : Bool) (k : String) :
    hdrGet (augment req b k).headers "x-is-subscriber"
      = some [{ value := if b then "true" else "false" }] := by
  unfold augment
  rw [hdrGet_hdrSet_other _ _ _ _ (by decide), hdrGet_hdrSet_self]

theorem hdrGet_augment_apiKey (req : CfRequest) (b : Bool) (k : String) :
    hdrGet (augment req b k).headers "x-api-key" = some [{ value := k }] := by
  unfold augment
  rw [hdrGet_hdrSet_self]

theorem extractJwt_eq_none (cs : List HV)
    (h : ∀ hv ∈ cs, occursIn "jwt=" hv.value = false) :
    extractJwt cs = none := by
  induction cs with
  | nil => rfl
  | cons hv rest ih =>
    have h1 : occursIn "jwt=" hv.value = false := h hv (by simp)
    simp only [extractJwt, h1]
    exact ih fun x hx => h x (by simp [hx])

theorem mapping_lower_of_mapping (p c : String) (h : mapping p = some c) :
    mapping (strLower p) = some c := by
  unfold mapping at h
  split_ifs at h with h1 h2
  · subst h1; rw [show strLower "product-a" = "product-a" from rfl]; exact h
  · subst h2; rw [show strLower "product-b" = "product-b" from rfl]; exact h

theorem mapping_ne_empty (p c : String) (h : mapping p = some c) : p ≠ "" := by
  unfold mapping at h
  split_ifs at h with h1 h2
  · subst h1; decide
  · subst h2; decide

/-! ### Concrete fixtures

Tokens assembled from base64url segments.  `hdrSeg` decodes to a JSON record
whose `kid` is `K1`; the claims segments decode to JSON records with the
claims named in each definition.  `okOracle` is a crypto primitive that
accepts, standing for RSA verification against a token legitimately signed by
the `K1` key. -/

def okOracle : CryptoOracle := ⟨fun _ _ _ => Except.ok true⟩

def demoKeys : List (String × String) := [("K1", "PK1")]

/-- base64url of the header record with `kid` `K1`. -/
def hdrSeg : String := "eyJraWQiOiJLMSJ9"

/-- base64url of the claims record with `exp` 9999999999 and
`custom:subs` `A,B`. -/
def claimsGood : String := "eyJleHAiOjk5OTk5OTk5OTksImN1c3RvbTpzdWJzIjoiQSxCIn0"

/-- base64url of the claims record with `exp` 1 and `custom:subs` `A,B`. -/
def claimsExpired : String := "eyJleHAiOjEsImN1c3RvbTpzdWJzIjoiQSxCIn0"

/-- base64url of the claims record with `custom:subs` `A,B` and no `exp`. -/
def claimsNoExp : String := "eyJjdXN0b206c3VicyI6IkEsQiJ9"

/-- base64url of the non-JSON text `notjson`. -/
def claimsBad : String := "bm90anNvbg"

def tokGood : String := hdrSeg ++ "." ++ claimsGood ++ "." ++ "c2ln"
def tokExpired : String := hdrSeg ++ "." ++ claimsExpired ++ "." ++ "c2ln"
def tokNoExp : String := hdrSeg ++ "." ++ claimsNoExp ++ "." ++ "c2ln"
def tokBad : String := hdrSeg ++ "." ++ claimsBad ++ "." ++ "c2ln"

/-- A token whose signature segment contains the text `jwt=`. -/
def tokEmbedded : String := hdrSeg ++ "." ++ claimsGood ++ "." ++ "AAjwt=BB"

def mkReq (m u cv : String) : CfRequest :=
  { method := m, uri := u, headers := [("cookie", [{ key := some "Cookie", value := cv }])] }

/-- The claims record parsed from `claimsGood`. -/
def objGood : JVal :=
  match getObjExc tokGood with
  | Except.ok v => v
  | Except.error _ => JVal.null

/-! ### C5 — method filtering

The claim says both GET and HEAD are subject to the filter.  The source
checks `request.method !== 'GET'` only (line 343): a HEAD request bypasses
the filter even when its cookie carries no token (or an expired one), so the
claim is refuted; the theorem below proves the amended claim that every
non-GET method, HEAD included, is forwarded unchanged. -/

/-- C5, counterexample: the same tokenless request is rejected as a GET but
forwarded untouched as a HEAD, so the filter is not applied to HEAD. -/
theorem c5_head_not_filtered :
    (mkReq "HEAD" "/product-a/content/123" "foo=bar").method = "HEAD" ∧
    handler okOracle demoKeys "SEK" 1000 (mkReq "HEAD" "/product-a/content/123" "foo=bar")
      = Except.ok (EdgeResult.forward (mkReq "HEAD" "/product-a/content/123" "foo=bar")) ∧
    handler okOracle demoKeys "SEK" 1000 (mkReq "GET" "/product-a/content/123" "foo=bar")
      = Except.ok (EdgeResult.reject response401) :=
  ⟨rfl, by decide, by decide⟩

/-- C5 (amended): only GET requests are subject to the filter; every request
with any other method — HEAD included — is returned unchanged with no header
mutation. -/
theorem handler_non_get_passthrough (oracle : CryptoOracle) (keys : List (String × String))
    (apiKey : String) (now : ℚ) (req : CfRequest) (hm : req.method ≠ "GET") :
    handler oracle keys apiKey now req = Except.ok (EdgeResult.forward req) := by
  unfold handler
  rw [if_neg hm]

/-- Witness for the amended C5 at a concrete HEAD request. -/
theorem handler_non_get_passthrough_witness :
    handler okOracle demoKeys "SEK" 1000 (mkReq "HEAD" "/x/y" "foo=bar")
      = Except.ok (EdgeResult.forward (mkReq "HEAD" "/x/y" "foo=bar")) :=
  handler_non_get_passthrough okOracle demoKeys "SEK" 1000
    (mkReq "HEAD" "/x/y" "foo=bar") (by decide)

/-! ### C8 — uniform rejection -/

/-- C8: every rejection the handler produces — missing token, failed
verification, expired token — is the single fixed object `response401`; the
status, headers and body never depend on the cause. -/
theorem handler_reject_is_response401 (oracle : CryptoOracle) (keys : List (String × String))
    (apiKey : String) (now : ℚ) (req : CfRequest) (r : CfResponse)
    (h : handler oracle keys apiKey now req = Except.ok (EdgeResult.reject r)) :
    r = response401 := by
  unfold handler at h
  repeat' split at h
  all_goals simp_all

/-- Witness for C8: a GET request with no `jwt=` cookie entry is rejected,
and the theorem applies to it. -/
theorem handler_reject_is_response401_witness : response401 = response401 :=
  handler_reject_is_response401 okOracle demoKeys "SEK" 1000
    (mkReq "GET" "/product-a/content/123" "foo=bar") response401 (by decide)

/-! ### C7 — verification is total and errors become `false` -/

/-- C7: `verify` returns a boolean for every token and key set.  Every throw
inside the try — a header that fails to JSON-parse, a token with fewer than
three segments (whose signature re-encoding throws on `undefined`), a `kid`
absent from the key set (which makes the crypto primitive throw), or a crypto
primitive failure — is caught and becomes `false`; `true` arises only from a
clean run of the primitive. -/
theorem verify_errors_to_false (oracle : CryptoOracle) (keys : List (String × String))
    (jwt : String) :
    (∀ u, verifyExc oracle keys jwt = Except.error u → verify oracle keys jwt = false) ∧
    (verify oracle keys jwt = true → verifyExc oracle keys jwt = Except.ok true) ∧
    (jsonParse (base64urlDecode ((jsSplit '.' jwt).headD "")) = none →
      verify oracle keys jwt = false) ∧
    (∀ hobj, jsonParse (base64urlDecode ((jsSplit '.' jwt).headD "")) = some hobj →
      getKey keys (jsLookup hobj "kid") = none →
      verify oracle keys jwt = false) := by
  refine ⟨?_, ?_, ?_, ?_⟩
  · intro u h
    unfold verify
    rw [h]
  · intro h
    unfold verify at h
    cases hv : verifyExc oracle keys jwt with
    | ok b =>
      rw [hv] at h
      simp only [] at h
      rw [h]
    | error u =>
      rw [hv] at h
      exact absurd h (by simp)
  · intro h
    unfold verify verifyExc
    rw [h]
  · intro hobj h1 h2
    unfold verify verifyExc
    rw [h1]
    cases hs : (jsSplit '.' jwt)[2]? with
    | none => rfl
    | some sig => simp [h2]

/-- Witness for C7: a key set without the token's `kid` yields `false`, not a
fault. -/
theorem verify_errors_to_false_witness : verify okOracle [] tokGood = false :=
  (verify_errors_to_false okOracle [] tokGood).2.2.2
    (JVal.obj [("kid", JVal.str "K1")]) rfl rfl

/-! ### C1 — subscriber is authorized -/

/-- C1: a GET request whose cookie carries a token that verifies against the
key set, whose `exp` is in the future, and whose subscription list contains
the product code that `mapping` assigns to the first path segment, is
forwarded with `x-is-subscriber` set to `true` and `x-api-key` set to the
shared secret. -/
theorem handler_subscriber_authorized
    (oracle : CryptoOracle) (keys : List (String × String)) (apiKey : String) (now : ℚ)
    (req : CfRequest) (jwt : String) (obj : JVal) (e : ℚ) (subs : List String) (p c : String)
    (hm : req.method = "GET")
    (hcook : extractJwt (cookiesOf req) = some jwt)
    (hne : jwt ≠ "")
    (hver : verify oracle keys jwt = true)
    (hobj : getObjExc jwt = Except.ok obj)
    (hexp : jsLookup obj "exp" = some (JVal.num e))
    (hfut : now < e)
    (hsubs : getSubs obj = Except.ok subs)
    (hseg : (jsSplit '/' req.uri)[1]? = some p)
    (hmap : mapping p = some c)
    (hmem : subs.contains c = true) :
    handler oracle keys apiKey now req
      = Except.ok (EdgeResult.forward (augment req true apiKey)) := by
  have hnexp : isExpired obj now = false := by
    unfold isExpired
    rw [hexp]
    simp only [jsToNum]
    exact decide_eq_false (not_lt.mpr hfut.le)
  have hsub : subIncl subs p = true := by
    unfold subIncl
    rw [mapping_lower_of_mapping p c hmap]
    exact hmem
  have hp : p ≠ "" := mapping_ne_empty p c hmap
  unfold handler
  simp [hm, hcook, hne, hver, hobj, hnexp, hsubs, hseg, hp, hsub]

/-- Witness for C1 at a concrete request for `/product-a/content/123` with a
token subscribed to `A,B`. -/
theorem handler_subscriber_authorized_witness :
    handler okOracle demoKeys "SEK" 1000
        (mkReq "GET" "/product-a/content/123" ("jwt=" ++ tokGood))
      = Except.ok (EdgeResult.forward
          (augment (mkReq "GET" "/product-a/content/123" ("jwt=" ++ tokGood)) true "SEK")) :=
  handler_subscriber_authorized okOracle demoKeys "SEK" 1000
    (mkReq "GET" "/product-a/content/123" ("jwt=" ++ tokGood)) tokGood objGood
    9999999999 ["A", "B"] "product-a" "A"
    rfl (by decide) (by decide) (by decide) rfl rfl (by norm_num) rfl rfl rfl rfl

/-! ### C4 — expired tokens are rejected -/

/-- C4: whenever the token's `exp` claim is strictly below the clock reading,
the handler answers with the fixed `response401`, even though the signature
verified and whatever the subscriptions say. -/
theorem handler_expired_rejected
    (oracle : CryptoOracle) (keys : List (String × String)) (apiKey : String) (now : ℚ)
    (req : CfRequest) (jwt : String) (obj : JVal) (e : ℚ)
    (hm : req.method = "GET")
    (hcook : extractJwt (cookiesOf req) = some jwt)
    (hne : jwt ≠ "")
    (hver : verify oracle keys jwt = true)
    (hobj : getObjExc jwt = Except.ok obj)
    (hexp : jsLookup obj "exp" = some (JVal.num e))
    (hpast : e < now) :
    handler oracle keys apiKey now req = Except.ok (EdgeResult.reject response401) := by
  have hisexp : isExpired obj now = true := by
    unfold isExpired
    rw [hexp]
    simp only [jsToNum]
    exact decide_eq_true hpast
  unfold handler
  simp [hm, hcook, hne, hver, hobj, hisexp]

/-- The claims record parsed from `claimsExpired`. -/
def objExpired : JVal :=
  match getObjExc tokExpired with
  | Except.ok v => v
  | Except.error _ => JVal.null

/-- Witness for C4: `exp` 1 against clock reading 1000, with a verifying
signature and a subscription that would otherwise authorize. -/
theorem handler_expired_rejected_witness :
    handler okOracle demoKeys "SEK" 1000
        (mkReq "GET" "/product-a/content/123" ("jwt=" ++ tokExpired))
      = Except.ok (EdgeResult.reject response401) :=
  handler_expired_rejected okOracle demoKeys "SEK" 1000
    (mkReq "GET" "/product-a/content/123" ("jwt=" ++ tokExpired)) tokExpired objExpired 1
    rfl (by decide) (by decide) (by decide) rfl rfl (by norm_num)

/-! ### C9 — a missing `exp` claim never expires -/

/-- C9: when the verified token's claims carry no `exp` field — including the
degenerate empty record that `getObj` substitutes for unparseable claims —
`isExpired` is `false` and the request goes on to entitlement evaluation and
is forwarded, never rejected. -/
theorem handler_missing_exp_proceeds
    (oracle : CryptoOracle) (keys : List (String × String)) (apiKey : String) (now : ℚ)
    (req : CfRequest) (jwt : String) (obj : JVal) (subs : List String)
    (hm : req.method = "GET")
    (hcook : extractJwt (cookiesOf req) = some jwt)
    (hne : jwt ≠ "")
    (hver : verify oracle keys jwt = true)
    (hobj : getObjExc jwt = Except.ok obj)
    (hexp : jsLookup obj "exp" = none)
    (hsubs : getSubs obj = Except.ok subs) :
    isExpired obj now = false ∧
    ∃ out, handler oracle keys apiKey now req = Except.ok (EdgeResult.forward out) := by
  have hnexp : isExpired obj now = false := by
    unfold isExpired
    rw [hexp]
  refine ⟨hnexp, ?_⟩
  cases hseg : (jsSplit '/' req.uri)[1]? with
  | none => exact ⟨req, by simp [handler, hm, hcook, hne, hver, hobj, hnexp, hsubs, hseg]⟩
  | some p =>
    by_cases hp : p = ""
    · exact ⟨req, by simp [handler, hm, hcook, hne, hver, hobj, hnexp, hsubs, hseg, hp]⟩
    · exact ⟨augment req (subIncl subs p) apiKey,
        by simp [handler, hm, hcook, hne, hver, hobj, hnexp, hsubs, hseg, hp]⟩

/-- The claims record parsed from `claimsNoExp`. -/
def objNoExp : JVal :=
  match getObjExc tokNoExp with
  | Except.ok v => v
  | Except.error _ => JVal.null

/-- Witness for C9 at a token whose claims have subscriptions but no `exp`. -/
theorem handler_missing_exp_proceeds_witness :
    isExpired objNoExp 1000 = false ∧
    ∃ out, handler okOracle demoKeys "SEK" 1000
        (mkReq "GET" "/product-a/content/123" ("jwt=" ++ tokNoExp))
      = Except.ok (EdgeResult.forward out) :=
  handler_missing_exp_proceeds okOracle demoKeys "SEK" 1000
    (mkReq "GET" "/product-a/content/123" ("jwt=" ++ tokNoExp)) tokNoExp objNoExp ["A", "B"]
    rfl (by decide) (by decide) (by decide) rfl rfl rfl

/-! ### C2 — unmapped product slug

The claim says a request whose first path segment is not a mapping key is
forwarded unchanged.  The source only passes through when the segment is
*empty* (line 382); a nonempty unmapped segment such as `product-c` falls to
the entitlement branch, where `subs.includes(undefined)` is `false`, so the
request is forwarded with `x-is-subscriber: false` and `x-api-key` added —
not unchanged. -/

/-- C2, counterexample: `/product-c/content/5` has an unmapped first segment,
yet the authorized request comes back with an `x-is-subscriber` header (value
`false`) and the api key header added. -/
theorem c2_unmapped_slug_gets_headers :
    (jsSplit '/' "/product-c/content/5")[1]? = some "product-c" ∧
    mapping "product-c" = none ∧
    hdrGet (mkReq "GET" "/product-c/content/5" ("jwt=" ++ tokGood)).headers
        "x-is-subscriber" = none ∧
    handler okOracle demoKeys "SEK" 1000
        (mkReq "GET" "/product-c/content/5" ("jwt=" ++ tokGood))
      = Except.ok (EdgeResult.forward
          (augment (mkReq "GET" "/product-c/content/5" ("jwt=" ++ tokGood)) false "SEK")) ∧
    hdrGet (augment (mkReq "GET" "/product-c/content/5" ("jwt=" ++ tokGood)) false "SEK").headers
        "x-is-subscriber" = some [{ value := "false" }] :=
  ⟨rfl, rfl, rfl, by decide, by decide⟩

/-- C2 (amended): only a request whose first path segment is empty or absent
is forwarded unchanged; a request whose nonempty first segment is not a key
of the mapping (once its token passes the cookie, signature and expiry
checks) is forwarded with `x-is-subscriber` set to `false` and the api key
header added. -/
theorem handler_unmapped_slug
    (oracle : CryptoOracle) (keys : List (String × String)) (apiKey : String) (now : ℚ)
    (req : CfRequest) (jwt : String) (obj : JVal) (subs : List String)
    (hm : req.method = "GET")
    (hcook : extractJwt (cookiesOf req) = some jwt)
    (hne : jwt ≠ "")
    (hver : verify oracle keys jwt = true)
    (hobj : getObjExc jwt = Except.ok obj)
    (hnexp : isExpired obj now = false)
    (hsubs : getSubs obj = Except.ok subs) :
    (((jsSplit '/' req.uri)[1]? = none ∨ (jsSplit '/' req.uri)[1]? = some "") →
      handler oracle keys apiKey now req = Except.ok (EdgeResult.forward req)) ∧
    (∀ p, (jsSplit '/' req.uri)[1]? = some p → p ≠ "" → mapping (strLower p) = none →
      handler oracle keys apiKey now req
        = Except.ok (EdgeResult.forward (augment req false apiKey))) := by
  constructor
  · intro hseg
    cases hseg with
    | inl h => simp [handler, hm, hcook, hne, hver, hobj, hnexp, hsubs, h]
    | inr h => simp [handler, hm, hcook, hne, hver, hobj, hnexp, hsubs, h]
  · intro p hseg hp hmapnone
    have hsub : subIncl subs p = false := by
      unfold subIncl
      rw [hmapnone]
    simp [handler, hm, hcook, hne, hver, hobj, hnexp, hsubs, hseg, hp, hsub]

/-- Witness for the amended C2 at the `/product-c/content/5` request. -/
theorem handler_unmapped_slug_witness :
    handler okOracle demoKeys "SEK" 1000
        (mkReq "GET" "/product-c/content/5" ("jwt=" ++ tokGood))
      = Except.ok (EdgeResult.forward
          (augment (mkReq "GET" "/product-c/content/5" ("jwt=" ++ tokGood)) false "SEK")) :=
  (handler_unmapped_slug okOracle demoKeys "SEK" 1000
      (mkReq "GET" "/product-c/content/5" ("jwt=" ++ tokGood)) tokGood objGood ["A", "B"]
      rfl (by decide) (by decide) (by decide) rfl (by decide) rfl).2
    "product-c" rfl (by decide) rfl

/-! ### C3 — malformed claims do not reject

The claim says a claims segment that fails to decode or parse yields
`Rejected(MalformedToken)`.  The source has no such path: `getObj`
(lines 314-323) catches the `JSON.parse` failure and substitutes the empty
array, and the handler carries on with no `exp` and no subscriptions; the
permissive fallback covers the whole claims record, not only the
subscriptions field. -/

/-- C3, counterexample: the claims segment of `tokBad` decodes to `notjson`,
which fails `JSON.parse`; the GET request carrying it (signature accepted) is
forwarded with `x-is-subscriber: false` — not rejected. -/
theorem c3_bad_claims_not_rejected :
    jsonParse (base64urlDecode claimsBad) = none ∧
    getObjExc tokBad = Except.ok (JVal.arr []) ∧
    handler okOracle demoKeys "SEK" 1000
        (mkReq "GET" "/product-a/content/123" ("jwt=" ++ tokBad))
      = Except.ok (EdgeResult.forward
          (augment (mkReq "GET" "/product-a/content/123" ("jwt=" ++ tokBad)) false "SEK")) :=
  ⟨rfl, rfl, by decide⟩

/-- C3 (amended): a claims segment that fails to parse as JSON never rejects
the request: `getObj` degrades the whole claims record to the empty structure,
which has no `exp` and no subscriptions, and the handler proceeds to forward
the request. -/
theorem handler_bad_claims_degrade
    (oracle : CryptoOracle) (keys : List (String × String)) (apiKey : String) (now : ℚ)
    (req : CfRequest) (jwt : String) (payload : String)
    (hm : req.method = "GET")
    (hcook : extractJwt (cookiesOf req) = some jwt)
    (hne : jwt ≠ "")
    (hver : verify oracle keys jwt = true)
    (hpay : (jsSplit '.' jwt)[1]? = some payload)
    (hbad : jsonParse (base64urlDecode payload) = none) :
    getObjExc jwt = Except.ok (JVal.arr []) ∧
    isExpired (JVal.arr []) now = false ∧
    getSubs (JVal.arr []) = Except.ok [] ∧
    ∃ out, handler oracle keys apiKey now req = Except.ok (EdgeResult.forward out) := by
  have hobj : getObjExc jwt = Except.ok (JVal.arr []) := by
    simp [getObjExc, hpay, hbad]
  have hnexp : isExpired (JVal.arr []) now = false := rfl
  have hsubs : getSubs (JVal.arr []) = Except.ok [] := rfl
  refine ⟨hobj, hnexp, hsubs, ?_⟩
  cases hseg : (jsSplit '/' req.uri)[1]? with
  | none => exact ⟨req, by simp [handler, hm, hcook, hne, hver, hobj, hnexp, hsubs, hseg]⟩
  | some p =>
    by_cases hp : p = ""
    · exact ⟨req, by simp [handler, hm, hcook, hne, hver, hobj, hnexp, hsubs, hseg, hp]⟩
    · exact ⟨augment req (subIncl [] p) apiKey,
        by simp [handler, hm, hcook, hne, hver, hobj, hnexp, hsubs, hseg, hp]⟩

/-- Witness for the amended C3 at the `notjson` claims token. -/
theorem handler_bad_claims_degrade_witness :
    getObjExc tokBad = Except.ok (JVal.arr []) ∧
    isExpired (JVal.arr []) 1000 = false ∧
    getSubs (JVal.arr []) = Except.ok [] ∧
    ∃ out, handler okOracle demoKeys "SEK" 1000
        (mkReq "GET" "/product-a/content/123" ("jwt=" ++ tokBad))
      = Except.ok (EdgeResult.forward out) :=
  handler_bad_claims_degrade okOracle demoKeys "SEK" 1000
    (mkReq "GET" "/product-a/content/123" ("jwt=" ++ tokBad)) tokBad claimsBad
    rfl (by decide) (by decide) (by decide) (by decide) rfl

/-! ### C6 — cookie matching is by containment, not prefix

The claim says the scan takes the first cookie entry whose value *begins
with* `jwt=` and the token is the remainder after that prefix.  The source
(line 355) tests `indexOf('jwt=') >= 0` — containment anywhere — and always
takes `value.substring(4)`, the value minus its first four characters,
regardless of where the match occurred. -/

/-- C6, counterexample: a request whose single cookie value starts with
`abcd` and merely *contains* `jwt=` (inside the signature segment).  No entry
begins with `jwt=`, so under the claim the handler must reject; instead the
scan matches, the first four characters happen to hide the junk, the
remainder is a verifying token, and the request is forwarded as a
subscriber. -/
theorem c6_contains_not_prefix :
    ((cookiesOf (mkReq "GET" "/product-a/content/1" ("abcd" ++ tokEmbedded))).all
        (fun hv => ! leadsWith "jwt=" hv.value)) = true ∧
    extractJwt (cookiesOf (mkReq "GET" "/product-a/content/1" ("abcd" ++ tokEmbedded)))
      = some tokEmbedded ∧
    handler okOracle demoKeys "SEK" 1000
        (mkReq "GET" "/product-a/content/1" ("abcd" ++ tokEmbedded))
      = Except.ok (EdgeResult.forward
          (augment (mkReq "GET" "/product-a/content/1" ("abcd" ++ tokEmbedded)) true "SEK")) :=
  ⟨rfl, by decide, by decide⟩

/-- C6 (amended): the scan takes the first cookie entry whose value
*contains* `jwt=`, and the extracted token is that value minus its first four
characters (which equals the remainder after the prefix only when the value
begins with `jwt=`); when no entry contains `jwt=`, the handler rejects with
the fixed response before any parsing or verification. -/
theorem extract_by_containment
    (oracle : CryptoOracle) (keys : List (String × String)) (apiKey : String) (now : ℚ)
    (req : CfRequest)
    (hm : req.method = "GET")
    (hnone : ∀ hv ∈ cookiesOf req, occursIn "jwt=" hv.value = false) :
    extractJwt (cookiesOf req) = none ∧
    handler oracle keys apiKey now req = Except.ok (EdgeResult.reject response401) ∧
    ∀ hv rest, extractJwt (hv :: rest)
      = if occursIn "jwt=" hv.value then some (strDrop 4 hv.value) else extractJwt rest := by
  have hx : extractJwt (cookiesOf req) = none := extractJwt_eq_none _ hnone
  refine ⟨hx, ?_, fun hv rest => rfl⟩
  simp [handler, hm, hx]

/-- Witness for the amended C6 at a request whose only cookie is `foo=bar`. -/
theorem extract_by_containment_witness :
    extractJwt (cookiesOf (mkReq "GET" "/product-a/content/1" "foo=bar")) = none ∧
    handler okOracle demoKeys "SEK" 1000 (mkReq "GET" "/product-a/content/1" "foo=bar")
      = Except.ok (EdgeResult.reject response401) ∧
    ∀ hv rest, extractJwt (hv :: rest)
      = if occursIn "jwt=" hv.value then some (strDrop 4 hv.value) else extractJwt rest :=
  extract_by_containment okOracle demoKeys "SEK" 1000
    (mkReq "GET" "/product-a/content/1" "foo=bar") rfl (by decide)

/-! ### C10 — trust headers are overwritten -/

/-- C10: on the authorized path (GET, token extracted, verified, unexpired,
nonempty first path segment) the forwarded values of `x-is-subscriber` and
`x-api-key` are assignments that replace whatever the client supplied: the
same request with those two inbound headers set to arbitrary values forwards
with identical values at both headers. -/
theorem handler_overwrites_trust_headers
    (oracle : CryptoOracle) (keys : List (String × String)) (apiKey : String) (now : ℚ)
    (req : CfRequest) (jwt : String) (obj : JVal) (subs : List String) (p : String)
    (v1 v2 : List HV)
    (hm : req.method = "GET")
    (hcook : extractJwt (cookiesOf req) = some jwt)
    (hne : jwt ≠ "")
    (hver : verify oracle keys jwt = true)
    (hobj : getObjExc jwt = Except.ok obj)
    (hnexp : isExpired obj now = false)
    (hsubs : getSubs obj = Except.ok subs)
    (hseg : (jsSplit '/' req.uri)[1]? = some p)
    (hp : p ≠ "") :
    ∃ out out2,
      handler oracle keys apiKey now req = Except.ok (EdgeResult.forward out) ∧
      handler oracle keys apiKey now
          { req with
              headers := hdrSet (hdrSet req.headers "x-is-subscriber" v1) "x-api-key" v2 }
        = Except.ok (EdgeResult.forward out2) ∧
      hdrGet out.headers "x-is-subscriber" = hdrGet out2.headers "x-is-subscriber" ∧
      hdrGet out.headers "x-api-key" = hdrGet out2.headers "x-api-key" := by
  have hcook2 : cookiesOf
      { req with
          headers := hdrSet (hdrSet req.headers "x-is-subscriber" v1) "x-api-key" v2 }
      = cookiesOf req := by
    unfold cookiesOf
    rw [show ({ req with
          headers := hdrSet (hdrSet req.headers "x-is-subscriber" v1) "x-api-key" v2 }
          : CfRequest).headers
        = hdrSet (hdrSet req.headers "x-is-subscriber" v1) "x-api-key" v2 from rfl]
    rw [hdrGet_hdrSet_other _ _ _ _ (by decide), hdrGet_hdrSet_other _ _ _ _ (by decide)]
  rw [hm] at hcook2
  refine ⟨augment req (subIncl subs p) apiKey,
    augment
      { req with
          headers := hdrSet (hdrSet req.headers "x-is-subscriber" v1) "x-api-key" v2 }
      (subIncl subs p) apiKey, ?_, ?_, ?_, ?_⟩
  · simp [handler, hm, hcook, hne, hver, hobj, hnexp, hsubs, hseg, hp]
  · simp [handler, hm, hcook2, hcook, hne, hver, hobj, hnexp, hsubs, hseg, hp]
  · rw [hdrGet_augment_isSub, hdrGet_augment_isSub]
  · rw [hdrGet_augment_apiKey, hdrGet_augment_apiKey]

def req10 : CfRequest := mkReq "GET" "/product-c/content/5" ("jwt=" ++ tokGood)

/-- Witness for C10: the client presets `x-is-subscriber: true` and a fake
api key; the forwarded values at both headers match those of the run without
the presets. -/
theorem handler_overwrites_trust_headers_witness :
    ∃ out out2,
      handler okOracle demoKeys "SEK" 1000 req10 = Except.ok (EdgeResult.forward out) ∧
      handler okOracle demoKeys "SEK" 1000
          { req10 with
              headers := hdrSet (hdrSet req10.headers "x-is-subscriber" [{ value := "true" }])
                "x-api-key" [{ value := "HACK" }] }
        = Except.ok (EdgeResult.forward out2) ∧
      hdrGet out.headers "x-is-subscriber" = hdrGet out2.headers "x-is-subscriber" ∧
      hdrGet out.headers "x-api-key" = hdrGet out2.headers "x-api-key" :=
  handler_overwrites_trust_headers okOracle demoKeys "SEK" 1000
    req10 tokGood objGood ["A", "B"]
    "product-c" [{ value := "true" }] [{ value := "HACK" }]
    rfl (by decide) (by decide) (by decide) rfl (by decide) rfl rfl (by decide)

end Paywall
